import Mathlib

/-!
# OpenMC material records and the material registry

A shallow embedding of `include/openmc/material.h`.

* `int32_t` values are integers (`Int`); no arithmetic is performed on them
  by the embedded code.
* A `double` is modelled by the rational number it denotes.  The two
  literals of the header, `-1.0` and `-1`, are exactly representable in
  binary64, so the default member initialisers are modelled without loss.
  Statements quantified over all rationals cover every finite `double`.
* `class Material` is complete in the header: three public data members and
  two constructors.  The body of `Material(pugi::xml_node)` is not part of
  the header and is not embedded.
-/

namespace openmc

/-! ## `class Material` -/

/-- The class `Material`: `int32_t id`, `double volume_ {-1.0}` and
`double temperature_ {-1}`.  The defaults of the two `double` fields are the
default member initialisers of the header; `id` has none. -/
structure Material where
  id : Int
  volume_ : ℚ := -1
  temperature_ : ℚ := -1
  deriving DecidableEq

/-- The default constructor `Material() {}`.  Its body is empty, so the two
`double` members take their default member initialisers and `id` is left
uninitialised: the value it happens to hold is the argument
`indeterminate_id`. -/
def Material.default_constructor (indeterminate_id : Int) : Material :=
  { id := indeterminate_id }

/-- The operations the public data members of `Material` offer to any caller:
an assignment to `id`, to `volume_` or to `temperature_`. -/
inductive MaterialOp where
  | assign_id (v : Int)
  | assign_volume (v : ℚ)
  | assign_temperature (v : ℚ)
  deriving DecidableEq

/-- One assignment to a public data member. -/
def Material.apply (m : Material) : MaterialOp → Material
  | MaterialOp.assign_id v => { m with id := v }
  | MaterialOp.assign_volume v => { m with volume_ := v }
  | MaterialOp.assign_temperature v => { m with temperature_ := v }

/-- A sequence of assignments, performed from left to right. -/
def Material.run (m : Material) (ops : List MaterialOp) : Material :=
  ops.foldl Material.apply m

/-- The values a sequence of operations assigns to `volume_`, in order. -/
def assigned_volumes : List MaterialOp → List ℚ
  | [] => []
  | MaterialOp.assign_volume v :: ops => v :: assigned_volumes ops
  | _ :: ops => assigned_volumes ops

/-- The values a sequence of operations assigns to `id`, in order. -/
def assigned_ids : List MaterialOp → List Int
  | [] => []
  | MaterialOp.assign_id v :: ops => v :: assigned_ids ops
  | _ :: ops => assigned_ids ops

/-- The values a sequence of operations assigns to `temperature_`, in order. -/
def assigned_temperatures : List MaterialOp → List ℚ
  | [] => []
  | MaterialOp.assign_temperature v :: ops => v :: assigned_temperatures ops
  | _ :: ops => assigned_temperatures ops

/-! ## The global registry: `materials` and `material_map` -/

/-- Modelled from the spec: the error taxonomy of the component (section 7),
which the header does not declare. -/
inductive MaterialError where
  | UnderspecifiedDensityError
  | DuplicateConstituentError
  | DuplicateIdentifierError
  | UnknownMaterialError
  | MissingNuclideDataError
  | InconsistentUnitMixError
  | RegistrySealedError
  deriving DecidableEq

/-- The member function `find` of `std::unordered_map<int32_t, int32_t>`: the
value stored under `key`, if any.  The map is embedded as the list of its
key and value pairs. -/
def umap_find : List (Int × Int) → Int → Option Int
  | [], _ => none
  | (k, v) :: rest, key => if k = key then some v else umap_find rest key

/-- The assignment `map[key] = value` of `std::unordered_map`: the value of an
existing key is replaced, a new key is inserted. -/
def umap_assign : List (Int × Int) → Int → Int → List (Int × Int)
  | [], key, value => [(key, value)]
  | (k, v) :: rest, key, value =>
      if k = key then (key, value) :: rest else (k, v) :: umap_assign rest key value

/-- Modelled from the spec: the flag `sealed`, set by the explicit `seal()` call
of section 4.4, which the header does not declare.  The other two fields are the
globals of the header, `std::vector<Material*> materials` and
`std::unordered_map<int32_t, int32_t> material_map`; an element of `materials`
is embedded as the record it points to. -/
structure Registry where
  materials : List Material
  material_map : List (Int × Int)
  sealed : Bool
  deriving DecidableEq

/-- The registry before problem setup: both globals empty, not sealed. -/
def Registry.empty : Registry :=
  { materials := [], material_map := [], sealed := false }

/-- Modelled from the spec: `register(draft_record) -> RuntimeIndex` of section
4.4, which is not in the header.  It fails with `RegistrySealedError` once the
registry is sealed and with `DuplicateIdentifierError` if the identifier already
exists; otherwise it finalizes the draft, appends the record to `materials` and
maps the identifier to the dense index of the record.  The steps of finalization
other than the uniqueness check work on data the header does not declare; they
are the argument `finalize`, which may fail with any error.  The result is the
outcome of the call together with the registry it leaves behind. -/
def register (finalize : Material → Except MaterialError Material) (r : Registry)
    (draft : Material) : Except MaterialError Int × Registry :=
  if r.sealed then (Except.error MaterialError.RegistrySealedError, r)
  else if (umap_find r.material_map draft.id).isSome then
    (Except.error MaterialError.DuplicateIdentifierError, r)
  else
    match finalize draft with
    | Except.error e => (Except.error e, r)
    | Except.ok record =>
        (Except.ok (r.materials.length : Int),
          { r with
            materials := r.materials ++ [record]
            material_map := umap_assign r.material_map draft.id (r.materials.length : Int) })

/-- Modelled from the spec: `seal()` of section 4.4, which is not in the header;
it freezes the registry. -/
def seal_registry (r : Registry) : Registry :=
  { r with sealed := true }

/-- Modelled from the spec: `lookup(identifier) -> RuntimeIndex` of section 4.4,
which is not in the header; it fails with `UnknownMaterialError` if the
identifier is absent from `material_map`. -/
def lookup (r : Registry) (identifier : Int) : Except MaterialError Int :=
  match umap_find r.material_map identifier with
  | some index => Except.ok index
  | none => Except.error MaterialError.UnknownMaterialError

/-- Modelled from the spec: `get(RuntimeIndex) -> &MaterialRecord` of section
4.4, which is not in the header; the record at position `index` of `materials`.
An index outside the sequence has no record (`none`). -/
def get (r : Registry) (index : Int) : Option Material :=
  if 0 ≤ index then r.materials[index.toNat]? else none

/-- Modelled from the spec: the two operations of section 4.4 that act on the
registry during problem setup. -/
inductive RegistryOp where
  | register (draft : Material)
  | seal_registry
  deriving DecidableEq

/-- The registry one operation of `RegistryOp` leaves behind. -/
def Registry.step (finalize : Material → Except MaterialError Material) (r : Registry) :
    RegistryOp → Registry
  | RegistryOp.register draft => (register finalize r draft).2
  | RegistryOp.seal_registry => seal_registry r

/-- The registry a sequence of operations leaves behind. -/
def Registry.run (finalize : Material → Except MaterialError Material) (r : Registry)
    (ops : List RegistryOp) : Registry :=
  ops.foldl (Registry.step finalize) r

/-- The identifiers whose `register` call succeeded while `ops` ran from `r`, in
order of registration. -/
def registered_identifiers (finalize : Material → Except MaterialError Material) :
    Registry → List RegistryOp → List Int
  | _, [] => []
  | r, RegistryOp.register draft :: ops =>
      match (register finalize r draft).1 with
      | Except.ok _ => draft.id :: registered_identifiers finalize (register finalize r draft).2 ops
      | Except.error _ => registered_identifiers finalize (register finalize r draft).2 ops
  | r, RegistryOp.seal_registry :: ops => registered_identifiers finalize (seal_registry r) ops

/-- Every entry of `material_map` points into `materials`, at a record that
carries the identifier of the entry. -/
def Registry.consistent (r : Registry) : Prop :=
  ∀ key index, umap_find r.material_map key = some index →
    0 ≤ index ∧ index < (r.materials.length : Int) ∧
      ∃ m, get r index = some m ∧ m.id = key

/-! ## Assignments to the public data members -/

theorem Material.run_cons (m : Material) (op : MaterialOp) (ops : List MaterialOp) :
    m.run (op :: ops) = (m.apply op).run ops := rfl

/-- After a sequence of assignments `volume_` holds the last value assigned to
it, and its former value if there is none. -/
theorem Material.run_volume (m : Material) (ops : List MaterialOp) :
    (m.run ops).volume_ = (assigned_volumes ops).getLast?.getD m.volume_ := by
  induction ops generalizing m with
  | nil => rfl
  | cons op ops ih =>
    rw [Material.run_cons, ih]
    cases op <;> simp [assigned_volumes, Material.apply, List.getLast?_cons]

/-- After a sequence of assignments `id` holds the last value assigned to it,
and its former value if there is none. -/
theorem Material.run_id (m : Material) (ops : List MaterialOp) :
    (m.run ops).id = (assigned_ids ops).getLast?.getD m.id := by
  induction ops generalizing m with
  | nil => rfl
  | cons op ops ih =>
    rw [Material.run_cons, ih]
    cases op <;> simp [assigned_ids, Material.apply, List.getLast?_cons]

/-- After a sequence of assignments `temperature_` holds the last value assigned
to it, and its former value if there is none. -/
theorem Material.run_temperature (m : Material) (ops : List MaterialOp) :
    (m.run ops).temperature_ = (assigned_temperatures ops).getLast?.getD m.temperature_ := by
  induction ops generalizing m with
  | nil => rfl
  | cons op ops ih =>
    rw [Material.run_cons, ih]
    cases op <;> simp [assigned_temperatures, Material.apply, List.getLast?_cons]

/-- C1: a Material built by the default constructor `Material()`, whatever value
its uninitialised `id` holds, has `volume_` equal to exactly -1, the sentinel of
an unknown volume. -/
theorem default_volume_is_minus_one (indeterminate_id : Int) :
    (Material.default_constructor indeterminate_id).volume_ = -1 := rfl

/-- C2: a Material built by the default constructor `Material()`, whatever value
its uninitialised `id` holds, has `temperature_` equal to -1, which is strictly
negative: the sentinel of an unspecified default temperature. -/
theorem default_temperature_is_negative (indeterminate_id : Int) :
    (Material.default_constructor indeterminate_id).temperature_ = -1 ∧
      (Material.default_constructor indeterminate_id).temperature_ < 0 := by
  constructor
  · rfl
  · show (-1 : ℚ) < 0
    norm_num

/-- C3, as stated, fails: the statements `Material m; m.id = 0;` produce a
Material whose `id` is not positive. -/
theorem id_not_always_positive :
    ¬ (0 < ((Material.default_constructor 5).run [MaterialOp.assign_id 0]).id) := by
  decide

/-- C3, amended: the `id` of a Material built by `Material()` and then assigned
through its public data members is the value last assigned to `id`, so it is
positive exactly when that value is. -/
theorem id_is_last_assigned (indeterminate_id : Int) (ops : List MaterialOp) (v : Int)
    (h : (assigned_ids ops).getLast? = some v) :
    ((Material.default_constructor indeterminate_id).run ops).id = v ∧
      (0 < ((Material.default_constructor indeterminate_id).run ops).id ↔ 0 < v) := by
  have hid : ((Material.default_constructor indeterminate_id).run ops).id = v := by
    rw [Material.run_id, h]
    rfl
  exact ⟨hid, by rw [hid]⟩

theorem id_is_last_assigned_witness :
    (assigned_ids [MaterialOp.assign_volume 2, MaterialOp.assign_id 7]).getLast? = some 7 ∧
      (((Material.default_constructor 0).run
          [MaterialOp.assign_volume 2, MaterialOp.assign_id 7]).id = 7 ∧
        (0 < ((Material.default_constructor 0).run
          [MaterialOp.assign_volume 2, MaterialOp.assign_id 7]).id ↔ (0 : Int) < 7)) :=
  ⟨rfl, id_is_last_assigned 0 [MaterialOp.assign_volume 2, MaterialOp.assign_id 7] 7 rfl⟩

/-- C4, as stated, fails: the statements `Material m; m.volume_ = -2.0;` leave
`volume_` at -2, which is neither the sentinel -1 nor non-negative. -/
theorem volume_can_be_negative :
    ¬ (((Material.default_constructor 1).run [MaterialOp.assign_volume (-2)]).volume_ = -1 ∨
        0 ≤ ((Material.default_constructor 1).run [MaterialOp.assign_volume (-2)]).volume_) := by
  show ¬ ((-2 : ℚ) = -1 ∨ (0 : ℚ) ≤ -2)
  norm_num

/-- C4, amended: in a Material built by `Material()` and then assigned through
its public data members, `volume_` is the sentinel -1 or non-negative as long as
every value assigned to `volume_` is. -/
theorem volume_sentinel_or_nonnegative (indeterminate_id : Int) (ops : List MaterialOp)
    (h : ∀ v ∈ assigned_volumes ops, v = -1 ∨ 0 ≤ v) :
    ((Material.default_constructor indeterminate_id).run ops).volume_ = -1 ∨
      0 ≤ ((Material.default_constructor indeterminate_id).run ops).volume_ := by
  rw [Material.run_volume]
  cases hl : (assigned_volumes ops).getLast? with
  | none => left; rfl
  | some v => exact h v (List.mem_of_getLast?_eq_some hl)

theorem volume_sentinel_or_nonnegative_witness :
    (∀ v ∈ assigned_volumes [MaterialOp.assign_volume 3, MaterialOp.assign_id 4,
        MaterialOp.assign_volume (-1)], v = -1 ∨ 0 ≤ v) ∧
      (((Material.default_constructor 0).run [MaterialOp.assign_volume 3, MaterialOp.assign_id 4,
        MaterialOp.assign_volume (-1)]).volume_ = -1 ∨
        0 ≤ ((Material.default_constructor 0).run [MaterialOp.assign_volume 3,
          MaterialOp.assign_id 4, MaterialOp.assign_volume (-1)]).volume_) :=
  ⟨by simp [assigned_volumes],
    volume_sentinel_or_nonnegative 0 _ (by simp [assigned_volumes])⟩

/-- C10, as stated, fails: `Material` has no finalized state, and the assignment
`m.volume_ = 20` changes the record with id 1, volume 10 and temperature 300
whatever its history; more generally no record at all is left unchanged by
every operation of the public interface. -/
theorem record_fields_can_change :
    (({ id := 1, volume_ := 10, temperature_ := 300 } : Material).apply
        (MaterialOp.assign_volume 20)).volume_ = 20 ∧
      ({ id := 1, volume_ := 10, temperature_ := 300 } : Material).apply
          (MaterialOp.assign_volume 20) ≠
        ({ id := 1, volume_ := 10, temperature_ := 300 } : Material) ∧
      ¬ ∃ m : Material, ∀ op : MaterialOp, m.apply op = m := by
  refine ⟨rfl, ?_, ?_⟩
  · intro h
    have hv := congrArg Material.volume_ h
    simp [Material.apply] at hv
  · rintro ⟨m, hm⟩
    have hv := congrArg Material.volume_ (hm (MaterialOp.assign_volume (m.volume_ + 1)))
    simp [Material.apply] at hv

/-- C10, amended: `Material` stays assignable for the whole run; after any
sequence of operations of its public interface each of `id`, `volume_` and
`temperature_` holds the value last assigned to that field, and the value it
had before if no operation assigned it. -/
theorem fields_change_only_by_assignment (m : Material) (ops : List MaterialOp) :
    (m.run ops).id = (assigned_ids ops).getLast?.getD m.id ∧
      (m.run ops).volume_ = (assigned_volumes ops).getLast?.getD m.volume_ ∧
      (m.run ops).temperature_ =
        (assigned_temperatures ops).getLast?.getD m.temperature_ :=
  ⟨Material.run_id m ops, Material.run_volume m ops, Material.run_temperature m ops⟩

/-! ## The registry -/

theorem umap_find_assign_same (map : List (Int × Int)) (key value : Int) :
    umap_find (umap_assign map key value) key = some value := by
  induction map with
  | nil => simp [umap_assign, umap_find]
  | cons p rest ih =>
    obtain ⟨k, v⟩ := p
    by_cases hk : k = key
    · simp [umap_assign, umap_find, hk]
    · simp [umap_assign, umap_find, hk, ih]

theorem umap_find_assign_other (map : List (Int × Int)) (key value other : Int)
    (h : other ≠ key) :
    umap_find (umap_assign map key value) other = umap_find map other := by
  induction map with
  | nil => simp [umap_assign, umap_find, Ne.symm h]
  | cons p rest ih =>
    obtain ⟨k, v⟩ := p
    by_cases hk : k = key
    · subst hk
      simp [umap_assign, umap_find, Ne.symm h]
    · simp only [umap_assign, hk, if_false, umap_find, ih]

/-- What a successful `register` call did. -/
theorem register_ok (finalize : Material → Except MaterialError Material) (r r1 : Registry)
    (draft : Material) (index : Int) (h : register finalize r draft = (Except.ok index, r1)) :
    r.sealed = false ∧ umap_find r.material_map draft.id = none ∧
      index = (r.materials.length : Int) ∧
      ∃ record, finalize draft = Except.ok record ∧
        r1 = { r with
                materials := r.materials ++ [record]
                material_map := umap_assign r.material_map draft.id (r.materials.length : Int) } := by
  unfold register at h
  by_cases hs : r.sealed = true
  · simp [hs] at h
  · by_cases hd : (umap_find r.material_map draft.id).isSome = true
    · simp [hs, hd] at h
    · cases hf : finalize draft with
      | error e => simp [hs, hd, hf] at h
      | ok record =>
        rw [if_neg hs, if_neg hd] at h
        simp only [hf] at h
        injection h with h1 h2
        injection h1 with h1
        refine ⟨by simpa using hs, by simpa using hd, h1.symm, record, rfl, h2.symm⟩

/-- A `register` call either fails and leaves the registry as it was, or
succeeds as `register_ok` describes. -/
theorem register_cases (finalize : Material → Except MaterialError Material) (r : Registry)
    (draft : Material) :
    (∃ e, register finalize r draft = (Except.error e, r)) ∨
      ∃ index r1, register finalize r draft = (Except.ok index, r1) := by
  unfold register
  by_cases hs : r.sealed = true
  · left; exact ⟨MaterialError.RegistrySealedError, by rw [if_pos hs]⟩
  · by_cases hd : (umap_find r.material_map draft.id).isSome = true
    · left; exact ⟨MaterialError.DuplicateIdentifierError, by rw [if_neg hs, if_pos hd]⟩
    · rw [if_neg hs, if_neg hd]
      cases hf : finalize draft with
      | error e => left; exact ⟨e, rfl⟩
      | ok record => right; exact ⟨_, _, rfl⟩

theorem get_eq_some_iff (r : Registry) (index : Int) (m : Material) :
    get r index = some m ↔ 0 ≤ index ∧ r.materials[index.toNat]? = some m := by
  unfold get
  by_cases h : 0 ≤ index
  · simp [h]
  · simp [h]

/-- The record a successful registration appends is found at the index it
returns. -/
theorem get_appended (materials : List Material) (record : Material)
    (map : List (Int × Int)) (s : Bool) :
    get { materials := materials ++ [record], material_map := map, sealed := s }
      (materials.length : Int) = some record := by
  rw [get_eq_some_iff]
  simp

/-- Appending a record moves none of the records already stored. -/
theorem get_append_of_get (r : Registry) (record m : Material) (map : List (Int × Int))
    (index : Int) (h : get r index = some m) :
    get { r with materials := r.materials ++ [record], material_map := map } index = some m := by
  rw [get_eq_some_iff] at h ⊢
  refine ⟨h.1, ?_⟩
  have hlt : index.toNat < r.materials.length := by
    by_contra hge
    have hnone : r.materials[index.toNat]? = none := List.getElem?_eq_none (by omega)
    rw [hnone] at h
    exact absurd h.2 (by simp)
  show (r.materials ++ [record])[index.toNat]? = some m
  rw [List.getElem?_append_left hlt]
  exact h.2

/-- No operation removes or changes an entry of `material_map`. -/
theorem step_preserves_entry (finalize : Material → Except MaterialError Material)
    (r : Registry) (op : RegistryOp) (key index : Int)
    (h : umap_find r.material_map key = some index) :
    umap_find (Registry.step finalize r op).material_map key = some index := by
  cases op with
  | seal_registry => exact h
  | register draft =>
    show umap_find (register finalize r draft).2.material_map key = some index
    rcases register_cases finalize r draft with ⟨e, he⟩ | ⟨i, r1, hok⟩
    · rw [he]; exact h
    · obtain ⟨-, hnew, -, record, -, hr1⟩ := register_ok finalize r r1 draft i hok
      rw [hok, hr1]
      show umap_find (umap_assign r.material_map draft.id _) key = some index
      have hne : key ≠ draft.id := by
        intro heq
        rw [heq, hnew] at h
        exact absurd h (by simp)
      rw [umap_find_assign_other _ _ _ _ hne]
      exact h

/-- No operation removes or changes a record of `materials`. -/
theorem step_preserves_record (finalize : Material → Except MaterialError Material)
    (r : Registry) (op : RegistryOp) (index : Int) (m : Material)
    (h : get r index = some m) :
    get (Registry.step finalize r op) index = some m := by
  cases op with
  | seal_registry => exact h
  | register draft =>
    show get (register finalize r draft).2 index = some m
    rcases register_cases finalize r draft with ⟨e, he⟩ | ⟨i, r1, hok⟩
    · rw [he]; exact h
    · obtain ⟨-, -, -, record, -, hr1⟩ := register_ok finalize r r1 draft i hok
      rw [hok, hr1]
      exact get_append_of_get r record m _ index h

theorem run_preserves_entry (finalize : Material → Except MaterialError Material)
    (ops : List RegistryOp) (r : Registry) (key index : Int)
    (h : umap_find r.material_map key = some index) :
    umap_find (Registry.run finalize r ops).material_map key = some index := by
  induction ops generalizing r with
  | nil => exact h
  | cons op ops ih => exact ih _ (step_preserves_entry finalize r op key index h)

theorem run_preserves_record (finalize : Material → Except MaterialError Material)
    (ops : List RegistryOp) (r : Registry) (index : Int) (m : Material)
    (h : get r index = some m) :
    get (Registry.run finalize r ops) index = some m := by
  induction ops generalizing r with
  | nil => exact h
  | cons op ops ih => exact ih _ (step_preserves_record finalize r op index m h)

/-- A sealed registry is frozen: no sequence of operations changes it. -/
theorem run_sealed (finalize : Material → Except MaterialError Material)
    (ops : List RegistryOp) (r : Registry) (h : r.sealed = true) :
    Registry.run finalize r ops = r := by
  induction ops with
  | nil => rfl
  | cons op ops ih =>
    have hstep : Registry.step finalize r op = r := by
      cases op with
      | seal_registry =>
        show ({ r with sealed := true } : Registry) = r
        cases r
        simp_all
      | register draft =>
        show (register finalize r draft).2 = r
        unfold register
        rw [if_pos h]
    show Registry.run finalize (Registry.step finalize r op) ops = r
    rw [hstep]
    exact ih

/-- Every operation keeps `material_map` and `materials` consistent, provided
finalization returns a record with the identifier of the draft. -/
theorem step_consistent (finalize : Material → Except MaterialError Material)
    (hfin : ∀ draft record, finalize draft = Except.ok record → record.id = draft.id)
    (r : Registry) (op : RegistryOp) (h : r.consistent) :
    (Registry.step finalize r op).consistent := by
  cases op with
  | seal_registry => exact h
  | register draft =>
    show (register finalize r draft).2.consistent
    rcases register_cases finalize r draft with ⟨e, he⟩ | ⟨i, r1, hok⟩
    · rw [he]; exact h
    · obtain ⟨-, -, -, record, hrec, hr1⟩ := register_ok finalize r r1 draft i hok
      rw [hok, hr1]
      intro key index hfind
      have hfind2 : umap_find (umap_assign r.material_map draft.id (r.materials.length : Int)) key
          = some index := hfind
      show 0 ≤ index ∧ index < ((r.materials ++ [record]).length : Int) ∧ _
      by_cases hk : key = draft.id
      · rw [hk, umap_find_assign_same] at hfind2
        have hidx : index = (r.materials.length : Int) := by
          injection hfind2 with h1
          exact h1.symm
        subst hidx
        refine ⟨by omega, by simp, record, get_appended _ _ _ _, ?_⟩
        rw [hk]
        exact hfin draft record hrec
      · rw [umap_find_assign_other _ _ _ _ hk] at hfind2
        obtain ⟨h0, hlt, m, hget, hid⟩ := h key index hfind2
        refine ⟨h0, ?_, m, get_append_of_get r record m _ index hget, hid⟩
        simp only [List.length_append, List.length_singleton, Nat.cast_add, Nat.cast_one]
        omega

theorem empty_consistent : Registry.empty.consistent := by
  intro key index h
  simp [Registry.empty, umap_find] at h

theorem run_consistent (finalize : Material → Except MaterialError Material)
    (hfin : ∀ draft record, finalize draft = Except.ok record → record.id = draft.id)
    (ops : List RegistryOp) (r : Registry) (h : r.consistent) :
    (Registry.run finalize r ops).consistent := by
  induction ops generalizing r with
  | nil => exact h
  | cons op ops ih => exact ih _ (step_consistent finalize hfin r op h)

/-- The keys of `material_map` after a run are the keys it had before together
with the identifiers registered during the run. -/
theorem run_key_iff (finalize : Material → Except MaterialError Material)
    (ops : List RegistryOp) (r : Registry) (key : Int) :
    (umap_find (Registry.run finalize r ops).material_map key).isSome = true ↔
      (umap_find r.material_map key).isSome = true ∨
        key ∈ registered_identifiers finalize r ops := by
  induction ops generalizing r with
  | nil => simp [Registry.run, registered_identifiers]
  | cons op ops ih =>
    cases op with
    | seal_registry =>
      show (umap_find (Registry.run finalize (seal_registry r) ops).material_map key).isSome
          = true ↔ _ ∨ key ∈ registered_identifiers finalize (seal_registry r) ops
      rw [ih]
      rfl
    | register draft =>
      show (umap_find (Registry.run finalize (register finalize r draft).2 ops).material_map
          key).isSome = true ↔ _
      rw [ih]
      rcases register_cases finalize r draft with ⟨e, he⟩ | ⟨i, r1, hok⟩
      · simp only [registered_identifiers, he]
      · obtain ⟨-, -, -, record, -, hr1⟩ := register_ok finalize r r1 draft i hok
        simp only [registered_identifiers, hok, List.mem_cons]
        have hmap : r1.material_map =
            umap_assign r.material_map draft.id (r.materials.length : Int) := by
          rw [hr1]
        rw [hmap]
        by_cases hk : key = draft.id
        · subst hk
          simp [umap_find_assign_same]
        · rw [umap_find_assign_other _ _ _ _ hk]
          simp [hk, or_assoc]

/-- C5: when the registration of a Material has succeeded, then after any
sequence of further registry operations that leaves the registry unsealed,
registering another Material with the same identifier fails with
`DuplicateIdentifierError` and leaves the registry as it was: `materials` and
`material_map` are unchanged, and `lookup` of the identifier followed by `get`
still returns the record of the first registration, at the index that
registration returned. -/
theorem register_duplicate_fails (finalize : Material → Except MaterialError Material)
    (r r1 : Registry) (first second : Material) (index : Int) (between : List RegistryOp)
    (h1 : register finalize r first = (Except.ok index, r1))
    (hopen : (Registry.run finalize r1 between).sealed = false)
    (hid : second.id = first.id) :
    (register finalize (Registry.run finalize r1 between) second).1 =
        Except.error MaterialError.DuplicateIdentifierError ∧
      (register finalize (Registry.run finalize r1 between) second).2 =
        Registry.run finalize r1 between ∧
      (register finalize (Registry.run finalize r1 between) second).2.materials =
        (Registry.run finalize r1 between).materials ∧
      (register finalize (Registry.run finalize r1 between) second).2.material_map =
        (Registry.run finalize r1 between).material_map ∧
      ∃ record, finalize first = Except.ok record ∧
        lookup (register finalize (Registry.run finalize r1 between) second).2 first.id =
          Except.ok index ∧
        get (register finalize (Registry.run finalize r1 between) second).2 index =
          some record := by
  obtain ⟨-, -, hidx, record, hrec, hr1⟩ := register_ok finalize r r1 first index h1
  have hfind1 : umap_find r1.material_map first.id = some index := by
    rw [hr1, hidx]
    exact umap_find_assign_same _ _ _
  have hget1 : get r1 index = some record := by
    rw [hr1, hidx]
    exact get_appended _ _ _ _
  have hfind : umap_find (Registry.run finalize r1 between).material_map first.id =
      some index := run_preserves_entry finalize between r1 first.id index hfind1
  have hget : get (Registry.run finalize r1 between) index = some record :=
    run_preserves_record finalize between r1 index record hget1
  have hdup : register finalize (Registry.run finalize r1 between) second =
      (Except.error MaterialError.DuplicateIdentifierError,
        Registry.run finalize r1 between) := by
    unfold register
    rw [if_neg (by simp [hopen]), if_pos (by rw [hid, hfind]; rfl)]
  rw [hdup]
  refine ⟨rfl, rfl, rfl, rfl, record, hrec, ?_, hget⟩
  show lookup (Registry.run finalize r1 between) first.id = Except.ok index
  unfold lookup
  rw [hfind]

theorem register_duplicate_fails_witness :
    register Except.ok Registry.empty { id := 7 } =
        (Except.ok 0,
          { materials := [{ id := 7 }], material_map := [(7, 0)], sealed := false }) ∧
      Registry.run Except.ok
          { materials := [{ id := 7 }], material_map := [(7, 0)], sealed := false }
          [RegistryOp.register { id := 3 }] =
        { materials := [{ id := 7 }, { id := 3 }], material_map := [(7, 0), (3, 1)],
          sealed := false } ∧
      ({ id := 7, volume_ := 2 } : Material).id = ({ id := 7 } : Material).id ∧
      ((register Except.ok
          (Registry.run Except.ok
            { materials := [{ id := 7 }], material_map := [(7, 0)], sealed := false }
            [RegistryOp.register { id := 3 }])
          { id := 7, volume_ := 2 }).1 =
        Except.error MaterialError.DuplicateIdentifierError ∧
      (register Except.ok
          (Registry.run Except.ok
            { materials := [{ id := 7 }], material_map := [(7, 0)], sealed := false }
            [RegistryOp.register { id := 3 }])
          { id := 7, volume_ := 2 }).2 =
        Registry.run Except.ok
          { materials := [{ id := 7 }], material_map := [(7, 0)], sealed := false }
          [RegistryOp.register { id := 3 }]) :=
  ⟨rfl, rfl, rfl,
    (register_duplicate_fails Except.ok Registry.empty
      { materials := [{ id := 7 }], material_map := [(7, 0)], sealed := false }
      { id := 7 } { id := 7, volume_ := 2 } 0 [RegistryOp.register { id := 3 }]
      rfl rfl rfl).1,
    (register_duplicate_fails Except.ok Registry.empty
      { materials := [{ id := 7 }], material_map := [(7, 0)], sealed := false }
      { id := 7 } { id := 7, volume_ := 2 } 0 [RegistryOp.register { id := 3 }]
      rfl rfl rfl).2.1⟩

/-- C6: for every identifier registered in a registry built from the empty one,
`lookup` returns an index in range of `materials`, `get` on that index returns a
record, and the record carries that identifier; if the registry is sealed,
`lookup` and `get` return the same index and the same record after any further
sequence of operations.  Finalization is assumed to keep the identifier of the
draft. -/
theorem lookup_get_registered (finalize : Material → Except MaterialError Material)
    (hfin : ∀ draft record, finalize draft = Except.ok record → record.id = draft.id)
    (ops : List RegistryOp) (identifier : Int)
    (hreg : identifier ∈ registered_identifiers finalize Registry.empty ops) :
    ∃ index record,
      lookup (Registry.run finalize Registry.empty ops) identifier = Except.ok index ∧
      0 ≤ index ∧
      index < ((Registry.run finalize Registry.empty ops).materials.length : Int) ∧
      get (Registry.run finalize Registry.empty ops) index = some record ∧
      record.id = identifier ∧
      ((Registry.run finalize Registry.empty ops).sealed = true →
        ∀ more : List RegistryOp,
          lookup (Registry.run finalize (Registry.run finalize Registry.empty ops) more)
              identifier = Except.ok index ∧
            get (Registry.run finalize (Registry.run finalize Registry.empty ops) more)
              index = some record) := by
  have hkey := (run_key_iff finalize ops Registry.empty identifier).mpr (Or.inr hreg)
  obtain ⟨index, hfind⟩ := Option.isSome_iff_exists.mp hkey
  obtain ⟨h0, hlt, record, hget, hrid⟩ :=
    run_consistent finalize hfin ops Registry.empty empty_consistent identifier index hfind
  have hlook : lookup (Registry.run finalize Registry.empty ops) identifier =
      Except.ok index := by
    unfold lookup
    rw [hfind]
  refine ⟨index, record, hlook, h0, hlt, hget, hrid, ?_⟩
  intro hsealed more
  rw [run_sealed finalize more _ hsealed]
  exact ⟨hlook, hget⟩

theorem lookup_get_registered_witness :
    (7 : Int) ∈ registered_identifiers Except.ok Registry.empty
        [RegistryOp.register { id := 3 }, RegistryOp.register { id := 7 },
          RegistryOp.seal_registry] ∧
      ∃ index record,
        lookup (Registry.run Except.ok Registry.empty
            [RegistryOp.register { id := 3 }, RegistryOp.register { id := 7 },
              RegistryOp.seal_registry]) 7 = Except.ok index ∧
        get (Registry.run Except.ok Registry.empty
            [RegistryOp.register { id := 3 }, RegistryOp.register { id := 7 },
              RegistryOp.seal_registry]) index = some record ∧
        record.id = 7 := by
  refine ⟨by decide, ?_⟩
  obtain ⟨index, record, h1, -, -, h2, h3, -⟩ :=
    lookup_get_registered Except.ok (fun draft record h => by cases h; rfl)
      [RegistryOp.register { id := 3 }, RegistryOp.register { id := 7 },
        RegistryOp.seal_registry] 7 (by decide)
  exact ⟨index, record, h1, h2, h3⟩

/-- C7: `lookup` fails with `UnknownMaterialError` exactly when the identifier is
not a key of `material_map`; in a registry built from the empty one the keys are
the identifiers whose registration succeeded, and `lookup` succeeds exactly for
those. -/
theorem lookup_unknown_iff_not_registered :
    (∀ (r : Registry) (identifier : Int),
      lookup r identifier = Except.error MaterialError.UnknownMaterialError ↔
        umap_find r.material_map identifier = none) ∧
    (∀ (finalize : Material → Except MaterialError Material) (ops : List RegistryOp)
      (identifier : Int),
      (umap_find (Registry.run finalize Registry.empty ops).material_map identifier = none ↔
        identifier ∉ registered_identifiers finalize Registry.empty ops) ∧
      ((∃ index, lookup (Registry.run finalize Registry.empty ops) identifier =
          Except.ok index) ↔
        identifier ∈ registered_identifiers finalize Registry.empty ops)) := by
  have hlookup : ∀ (r : Registry) (identifier : Int),
      lookup r identifier = Except.error MaterialError.UnknownMaterialError ↔
        umap_find r.material_map identifier = none := by
    intro r identifier
    unfold lookup
    cases umap_find r.material_map identifier <;> simp
  refine ⟨hlookup, ?_⟩
  intro finalize ops identifier
  have hkey := run_key_iff finalize ops Registry.empty identifier
  have hempty : (umap_find Registry.empty.material_map identifier).isSome = false := rfl
  rw [hempty] at hkey
  simp only [Bool.false_eq_true, false_or] at hkey
  constructor
  · rw [← hkey]
    cases umap_find (Registry.run finalize Registry.empty ops).material_map identifier <;> simp
  · rw [← hkey]
    unfold lookup
    cases umap_find (Registry.run finalize Registry.empty ops).material_map identifier <;> simp

end openmc
